import Mathlib

/-!
Verification development for the coral-rs agent runtime engine.

The Rust sources are shallowly embedded as pure Lean functions:
async effects (MCP fetches, tool invocations, completion requests, remote
claim submissions) become oracle functions passed in as arguments, `&mut`
state becomes explicit state passing, and fallible operations return
`Except Error`.  Machine integers are modelled with Nat/Int and the `f64`
fields of the generated ClaimAmount type with exact rationals.
-/

/-- Error taxonomy, from src/error.rs (`enum Error`).  Only the variants
reachable from the embedded functions are modelled; each carries the
message of the wrapped source error where one exists. -/
inductive Error where
  | mcpServiceError (message : String)
  | completionError (message : String)
  | toolsetError (message : String)
  | budgetExhausted
  | apiError (message : String)
deriving Repr, DecidableEq

/-- Modelled from the spec: the generated type AgentClaimAmount (alias
ClaimAmount) is produced by the build script from api_v1.json and is not
under src/.  Per the spec's data model it is a tagged numeric value in one
of three units: the internal currency (Coral, fractional), a fixed-point
micro integer unit of the same currency (MicroCoral), and fiat currency
(Usd).  The f64 payloads are modelled as exact rationals. -/
inductive ClaimAmount where
  | coral (x : ℚ)
  | microCoral (n : ℤ)
  | usd (x : ℚ)
deriving Repr, DecidableEq

/-- Modelled from the spec: the zero test on ClaimAmount ("supporting
scaling (divide by N, multiply by N) and a zero test"); the generated
implementation is not under src/. -/
def ClaimAmount.isZero : ClaimAmount → Bool
  | .coral x => x == 0
  | .microCoral n => n == 0
  | .usd x => x == 0

/-- Modelled from the spec: scaling a ClaimAmount by a token count
("multiply by N"); the generated implementation is not under src/. -/
def ClaimAmount.mul : ClaimAmount → ℕ → ClaimAmount
  | .coral x, n => .coral (x * n)
  | .microCoral m, n => .microCoral (m * n)
  | .usd x, n => .usd (x * n)

/-- Truncation toward zero, the semantics of Rust's `as i64` cast on a
finite float, used for the budget-floor conversion in claim_manager.rs. -/
def truncToward0 (q : ℚ) : ℤ :=
  if 0 ≤ q then ⌊q⌋ else ⌈q⌉

/-- Response of the remote claim_payment call (generated type
AgentClaimResponse); the fields read by claim_manager.rs are
remaining_budget (i64) and coral_usd_price (f64, modelled as ℚ). -/
structure AgentClaimResponse where
  remainingBudget : ℤ
  coralUsdPrice : ℚ
deriving Repr, DecidableEq

/-- MICRO_CORAL_TO_CORAL from claim_manager.rs (1_000_000.0). -/
def MICRO_CORAL_TO_CORAL : ℚ := 1000000

/-- ClaimManager configuration, from src/claim_manager.rs (`struct
ClaimManager`).  The api_url and remote_session_id strings only feed the
HTTP transport and are absorbed into the remote oracle. -/
structure ClaimManager where
  inputTokenCost : ClaimAmount
  outputTokenCost : ClaimAmount
  minBudget : ClaimAmount
  baseToolCallCost : ClaimAmount
  customToolCost : List (String × ClaimAmount)
  baseIterationCost : ClaimAmount
  baseToolIterationCost : ClaimAmount
  exitOnBudgetExhausted : Bool

/-- Conversion of the configured minimum budget into micro units, from the
`min_micro` match in ClaimManager::claim (claim_manager.rs lines 322-328):
Coral is multiplied by MICRO_CORAL_TO_CORAL, MicroCoral is taken as is,
Usd is divided by the remote-supplied coral_usd_price and then multiplied
by MICRO_CORAL_TO_CORAL, each float result cast with `as i64`. -/
def minBudgetMicro (minBudget : ClaimAmount) (coralUsdPrice : ℚ) : ℤ :=
  match minBudget with
  | .coral c => truncToward0 (c * MICRO_CORAL_TO_CORAL)
  | .microCoral m => m
  | .usd u => truncToward0 (u / coralUsdPrice * MICRO_CORAL_TO_CORAL)

/-- ClaimManager::claim from src/claim_manager.rs (lines 296-336).
`sendClaims` is the environment test CORAL_SEND_CLAIMS == "1"; `remote`
is the Client::claim_payment oracle (its error payload is the ApiError
message).  The first component of the result lists the amounts actually
sent to the remote ledger, in order. -/
def ClaimManager.claim (cm : ClaimManager) (sendClaims : Bool)
    (remote : ClaimAmount → Except String AgentClaimResponse)
    (amount : ClaimAmount) : List ClaimAmount × Except Error Unit :=
  if !sendClaims then
    ([], .ok ())
  else if amount.isZero then
    ([], .ok ())
  else
    match remote amount with
    | .error e => ([amount], .error (.apiError e))
    | .ok budget =>
      if cm.exitOnBudgetExhausted then
        if budget.remainingBudget ≤ minBudgetMicro cm.minBudget budget.coralUsdPrice then
          ([amount], .error .budgetExhausted)
        else
          ([amount], .ok ())
      else
        ([amount], .ok ())

/-- Token usage as reported by the model provider (rig's Usage struct, the
three fields read by claim_tokens). -/
structure Usage where
  inputTokens : ℕ
  outputTokens : ℕ
  totalTokens : ℕ

/-- ClaimManager::claim_tokens from src/claim_manager.rs (lines 197-240).
Returns the amounts sent remotely and the overall result. -/
def ClaimManager.claimTokens (cm : ClaimManager) (sendClaims : Bool)
    (remote : ClaimAmount → Except String AgentClaimResponse)
    (usage : Usage) : List ClaimAmount × Except Error Unit :=
  if cm.inputTokenCost.isZero && cm.outputTokenCost.isZero then
    ([], .ok ())
  else if usage.inputTokens + usage.outputTokens ≠ usage.totalTokens then
    cm.claim sendClaims remote (cm.outputTokenCost.mul usage.totalTokens)
  else if usage.totalTokens = 0 then
    ([], .ok ())
  else
    match cm.claim sendClaims remote (cm.inputTokenCost.mul usage.inputTokens) with
    | (sent, .error e) => (sent, .error e)
    | (sent, .ok _) =>
      match cm.claim sendClaims remote (cm.outputTokenCost.mul usage.outputTokens) with
      | (sent2, r) => (sent ++ sent2, r)

/-- ClaimManager::claim_tool_call from src/claim_manager.rs (lines
274-292): claims the base tool-call cost when non-zero, then, when the
custom-cost map has an entry for the tool name, claims that custom cost
twice (two consecutive `self.claim(cost.clone())` calls in the source). -/
def ClaimManager.claimToolCall (cm : ClaimManager) (sendClaims : Bool)
    (remote : ClaimAmount → Except String AgentClaimResponse)
    (name : String) : List ClaimAmount × Except Error Unit :=
  let base :=
    if !cm.baseToolCallCost.isZero then
      cm.claim sendClaims remote cm.baseToolCallCost
    else
      ([], .ok ())
  match base with
  | (sent, .error e) => (sent, .error e)
  | (sent, .ok _) =>
    match cm.customToolCost.lookup name with
    | none => (sent, .ok ())
    | some cost =>
      match cm.claim sendClaims remote cost with
      | (sent2, .error e) => (sent ++ sent2, .error e)
      | (sent2, .ok _) =>
        match cm.claim sendClaims remote cost with
        | (sent3, r) => (sent ++ (sent2 ++ sent3), r)

/-- Fixed claim-manager configuration used by concrete instances below:
every cost zero, floor 100 MicroCoral, exit-on-exhaustion enabled. -/
def cmFloor100 : ClaimManager :=
  { inputTokenCost := .microCoral 0
    outputTokenCost := .microCoral 0
    minBudget := .microCoral 100
    baseToolCallCost := .microCoral 0
    customToolCost := []
    baseIterationCost := .microCoral 0
    baseToolIterationCost := .microCoral 0
    exitOnBudgetExhausted := true }

/-- Same configuration with exit-on-exhaustion disabled. -/
def cmFloor100NoExit : ClaimManager :=
  { cmFloor100 with exitOnBudgetExhausted := false }

/-- Remote ledger oracle reporting a remaining budget of 50 micro units. -/
def remoteBudget50 : ClaimAmount → Except String AgentClaimResponse :=
  fun _ => .ok { remainingBudget := 50, coralUsdPrice := 1 }

/-- Remote ledger oracle reporting a large remaining budget. -/
def remoteAlwaysOk : ClaimAmount → Except String AgentClaimResponse :=
  fun _ => .ok { remainingBudget := 1000000, coralUsdPrice := 1 }

/-- Remote ledger oracle that always fails; used to witness that the
suppressed paths never consult the remote at all. -/
def remoteAlwaysDown : ClaimAmount → Except String AgentClaimResponse :=
  fun _ => .error "connection refused"

/-- Claim-manager configuration with a non-zero base tool-call cost and a
custom per-tool cost entry for the tool "search". -/
def cmCustomTool : ClaimManager :=
  { inputTokenCost := .microCoral 0
    outputTokenCost := .microCoral 0
    minBudget := .microCoral 0
    baseToolCallCost := .microCoral 1
    customToolCost := [("search", .microCoral 2)]
    baseIterationCost := .microCoral 0
    baseToolIterationCost := .microCoral 0
    exitOnBudgetExhausted := false }

/-- Resource contents returned by an MCP server (rmcp ResourceContents):
either text contents or blob contents, each carrying its uri and an
optional mime type. -/
inductive ResourceContents where
  | text (uri : String) (mimeType : Option String) (text : String)
  | blob (uri : String) (mimeType : Option String) (blob : String)
deriving Repr, DecidableEq

/-- Context document (rig Document): validate_mcp_resources builds one
from each TextResourceContents, with the uri as id and the mime type kept
when present (the additional_props map holds at most that one entry, so an
Option suffices). -/
structure Document where
  id : String
  text : String
  mimeType : Option String
deriving Repr, DecidableEq

/-- Conversion inside validate_mcp_resources (agent.rs lines 173-191):
a TextResourceContents becomes a Document, anything else is dropped. -/
def resourceToDocument : ResourceContents → Option Document
  | .text uri mimeType text => some { id := uri, text := text, mimeType := mimeType }
  | .blob _ _ _ => none

/-- Per-connection state of the agent: the policy flags of the underlying
McpServerConnection together with the two validated booleans of
ValidatedMcpServerConnection (agent.rs lines 26-30).  The resource policy
flags mirror the tool ones per the spec's two independent policy pairs. -/
structure ConnState where
  identifier : String
  revalidateTooling : Bool
  skipTooling : Bool
  revalidateResources : Bool
  skipResources : Bool
  toolsValidated : Bool
  resourcesValidated : Bool
deriving Repr, DecidableEq

/-- Loop guard of validate_mcp_tooling (agent.rs lines 118-121): a
connection is fetched this round unless it is already validated and not
revalidating, or flagged skip. -/
def toolingDue (c : ConnState) : Bool :=
  !((c.toolsValidated && !c.revalidateTooling) || c.skipTooling)

/-- Loop guard of validate_mcp_resources (agent.rs lines 164-167). -/
def resourcesDue (c : ConnState) : Bool :=
  !((c.resourcesValidated && !c.revalidateResources) || c.skipResources)

/-- Mutable state of Agent as touched by the validation refresh:
static_tools and the ToolSet (tracked by tool name; add_tool keys handles
by name so the name set gains a name at most once), static_context, the
two revalidating record sets, and the connection list. -/
structure AgentState where
  staticTools : List String
  toolset : List String
  staticContext : List Document
  revalidatingTooling : List String
  revalidatingResources : List String
  conns : List ConnState
deriving Repr, DecidableEq

/-- ToolSet::add_tool keyed by tool name: inserting an already present
name replaces the handle and leaves the name set unchanged. -/
def addTool (toolset : List String) (name : String) : List String :=
  if toolset.contains name then toolset else toolset ++ [name]

/-- Eviction phase of validate_mcp_tooling (agent.rs lines 110-114): every
name recorded in revalidating_tooling is removed from static_tools and
deleted from the ToolSet, and the record set is drained (the retain
closure always returns false). -/
def evictRevalidatingTooling (s : AgentState) : AgentState :=
  { s with
    staticTools := s.staticTools.filter (fun n => !s.revalidatingTooling.contains n)
    toolset := s.toolset.filter (fun n => !s.revalidatingTooling.contains n)
    revalidatingTooling := [] }

/-- Eviction phase of validate_mcp_resources (agent.rs lines 158-161):
every id recorded in revalidating_resources is removed from
static_context, and the record set is drained. -/
def evictRevalidatingResources (s : AgentState) : AgentState :=
  { s with
    staticContext := s.staticContext.filter
      (fun doc => !s.revalidatingResources.contains doc.id)
    revalidatingResources := [] }

/-- Fetch loop of validate_mcp_tooling (agent.rs lines 116-141), one pass
over the connections in order; `fetch i` is the get_tools oracle for the
connection at index `i`, returning the advertised tool names.  Returns the
updated connections, the concatenated fetched names in connection order,
and the names newly recorded for later eviction (those fetched from
revalidating connections). -/
def gatherTools (fetch : ℕ → Except Error (List String)) :
    List ConnState → ℕ → Except Error (List ConnState × List String × List String)
  | [], _ => .ok ([], [], [])
  | c :: rest, i =>
    if !toolingDue c then
      match gatherTools fetch rest (i + 1) with
      | .error e => .error e
      | .ok (cs, ts, rs) => .ok (c :: cs, ts, rs)
    else
      match fetch i with
      | .error e => .error e
      | .ok names =>
        let c' := { c with toolsValidated := true }
        let recorded := if c.revalidateTooling then names else []
        match gatherTools fetch rest (i + 1) with
        | .error e => .error e
        | .ok (cs, ts, rs) => .ok (c' :: cs, names ++ ts, recorded ++ rs)

/-- Agent::validate_mcp_tooling (agent.rs lines 108-152): evict the
recorded revalidating names, fetch every due connection, record the
names fetched from revalidating connections, then extend static_tools
with all fetched names and fold them into the ToolSet.  An oracle error
aborts the round (the `?` propagation in the source). -/
def validateMcpTooling (fetch : ℕ → Except Error (List String))
    (s : AgentState) : Except Error AgentState :=
  let s0 := evictRevalidatingTooling s
  match gatherTools fetch s0.conns 0 with
  | .error e => .error e
  | .ok (cs, ts, rs) =>
    .ok { s0 with
          conns := cs
          revalidatingTooling := s0.revalidatingTooling ++ rs
          staticTools := s0.staticTools ++ ts
          toolset := ts.foldl addTool s0.toolset }

/-- Fetch loop of validate_mcp_resources (agent.rs lines 163-203); `fetch
i` is the get_resources oracle for the connection at index `i`.  Returns
the updated connections, the converted documents in connection order, and
the ids newly recorded for later eviction. -/
def gatherResources (fetch : ℕ → Except Error (List ResourceContents)) :
    List ConnState → ℕ → Except Error (List ConnState × List Document × List String)
  | [], _ => .ok ([], [], [])
  | c :: rest, i =>
    if !resourcesDue c then
      match gatherResources fetch rest (i + 1) with
      | .error e => .error e
      | .ok (cs, ds, rs) => .ok (c :: cs, ds, rs)
    else
      match fetch i with
      | .error e => .error e
      | .ok contents =>
        let docs := contents.filterMap resourceToDocument
        let c' := { c with resourcesValidated := true }
        let recorded := if c.revalidateResources then docs.map (fun d => d.id) else []
        match gatherResources fetch rest (i + 1) with
        | .error e => .error e
        | .ok (cs, ds, rs) => .ok (c' :: cs, docs ++ ds, recorded ++ rs)

/-- Agent::validate_mcp_resources (agent.rs lines 156-206): evict the
recorded revalidating ids, then fetch every due connection, convert the
text resources to documents, record the ids fetched from revalidating
connections, and append the documents to static_context (the per-
connection extends concatenate in connection order). -/
def validateMcpResources (fetch : ℕ → Except Error (List ResourceContents))
    (s : AgentState) : Except Error AgentState :=
  let s0 := evictRevalidatingResources s
  match gatherResources fetch s0.conns 0 with
  | .error e => .error e
  | .ok (cs, ds, rs) =>
    .ok { s0 with
          conns := cs
          revalidatingResources := s0.revalidatingResources ++ rs
          staticContext := s0.staticContext ++ ds }

/-- Assistant-side content items (rig AssistantContent): text, a tool call
(with ids, name and argument payload), or reasoning. -/
inductive AssistantContent where
  | text (text : String)
  | toolCall (id : String) (callId : Option String) (name : String) (args : String)
  | reasoning (reasoning : String)
deriving Repr, DecidableEq

/-- User-side content items as produced by the engine: plain text or a
tool result (UserContent::tool_result / tool_result_with_call_id with a
single text item). -/
inductive UserContent where
  | text (text : String)
  | toolResult (id : String) (callId : Option String) (content : List String)
deriving Repr, DecidableEq

/-- One turn of the message history (rig Message). -/
inductive Message where
  | user (content : List UserContent)
  | assistant (id : Option String) (content : List AssistantContent)
deriving Repr, DecidableEq

/-- Modelled from the spec: the generated McpToolName enum (from
api_v1.json, not under src/); only the CoralSendMessage variant is
inspected by the engine, the remaining variants are collapsed. -/
inductive McpToolName where
  | coralSendMessage
  | otherTool (name : String)
deriving Repr, DecidableEq

/-- Message payload of a SendMessageSuccess tool result: the two fields
read by find_telemetry_targets. -/
structure SentMessage where
  id : String
  threadId : String
deriving Repr, DecidableEq

/-- Modelled from the spec: the generated McpToolResult enum (from
api_v1.json, not under src/); only the SendMessageSuccess variant is
inspected, the remaining variants are collapsed. -/
inductive McpToolResult where
  | sendMessageSuccess (message : SentMessage)
  | otherResult (payload : String)
deriving Repr, DecidableEq

/-- Telemetry target (generated type): a message id and thread id a
telemetry report should be attached to. -/
structure TelemetryTarget where
  messageId : String
  threadId : String
deriving Repr, DecidableEq

/-- Agent::find_telemetry_targets (agent.rs lines 244-268).  The two
serde_json deserializations of the generated types are oracle parameters:
`parseName` stands for parsing the quoted tool name into McpToolName and
`parseResult` for parsing the tool output into McpToolResult, `none`
standing for a parse failure.  Parse failures and non-SendMessageSuccess
results only produce a warning, so every non-matching pair yields the
empty list. -/
def findTelemetryTargets (parseName : String → Option McpToolName)
    (parseResult : String → Option McpToolResult)
    (name output : String) : List TelemetryTarget :=
  match parseName name with
  | some .coralSendMessage =>
    match parseResult output with
    | some (.sendMessageSuccess message) =>
      [{ messageId := message.id, threadId := message.threadId }]
    | some (.otherResult _) => []
    | none => []
  | _ => []

/-- Result of one completion round (struct CompletionResult, agent.rs
lines 32-41). -/
structure CompletionResult where
  messages : List Message
  texts : List String
  toolsUsed : ℕ
deriving Repr, DecidableEq

/-- The per-choice loop of run_completion (agent.rs lines 316-353),
processing the content items of the assistant response in order.  A tool
call invokes the `toolCall` oracle (name, arguments); its failure aborts
the round; success appends one tool-result user turn (carrying the call
id when the model supplied one), counts the tool as used, and scans for
telemetry targets.  Text items are collected; other kinds are ignored. -/
def processChoices (toolCall : String → String → Except Error String)
    (parseName : String → Option McpToolName)
    (parseResult : String → Option McpToolResult) :
    List AssistantContent → List Message → List String → ℕ → List TelemetryTarget →
    Except Error (List Message × List String × ℕ × List TelemetryTarget)
  | [], messages, texts, used, targets => .ok (messages, texts, used, targets)
  | .toolCall id callId name args :: rest, messages, texts, used, targets =>
    match toolCall name args with
    | .error e => .error e
    | .ok output =>
      let targets := targets ++ findTelemetryTargets parseName parseResult name output
      let resultMsg := Message.user [UserContent.toolResult id callId [output]]
      processChoices toolCall parseName parseResult rest
        (messages ++ [resultMsg]) texts (used + 1) targets
  | .text t :: rest, messages, texts, used, targets =>
    processChoices toolCall parseName parseResult rest messages (texts ++ [t]) used targets
  | .reasoning _ :: rest, messages, texts, used, targets =>
    processChoices toolCall parseName parseResult rest messages texts used targets

/-- Agent::run_completion (agent.rs lines 286-364).  Oracles: `fetchT` and
`fetchR` for the validation refresh, `completion` for the single
completion request (returning the assistant content items), `toolCall`
for ToolSet::call, and the two telemetry parsers.  The outer Option
models the panic of the `.expect` on an empty history: `none` is the
panic, `some` a normal return.  The telemetry submission is fire-and-
forget (failures only logged), so it alters no returned value; the
targets computed by the loop are returned by processChoices and then
discarded here exactly as the source's send_telemetry leaves the result
untouched. -/
def runCompletion (fetchT : ℕ → Except Error (List String))
    (fetchR : ℕ → Except Error (List ResourceContents))
    (completion : Except Error (List AssistantContent))
    (toolCall : String → String → Except Error String)
    (parseName : String → Option McpToolName)
    (parseResult : String → Option McpToolResult)
    (s : AgentState) (messages : List Message) :
    Option (Except Error (AgentState × CompletionResult)) :=
  match validateMcpTooling fetchT s with
  | .error e => some (.error e)
  | .ok s1 =>
    match validateMcpResources fetchR s1 with
    | .error e => some (.error e)
    | .ok s2 =>
      match messages.getLast? with
      | none => none
      | some prompt =>
        match completion with
        | .error e => some (.error e)
        | .ok choice =>
          match processChoices toolCall parseName parseResult choice
              (messages.dropLast ++ [prompt, Message.assistant none choice]) [] 0 [] with
          | .error e => some (.error e)
          | .ok (finalMessages, texts, used, _targets) =>
            some (.ok (s2, { messages := finalMessages, texts := texts, toolsUsed := used }))

/-- DEFAULT_ITERATION_TOOL_QUOTA from src/agent_loop.rs line 8. -/
def DEFAULT_ITERATION_TOOL_QUOTA : Option ℕ := some 64

/-- Inner loop body of AgentLoop::execute (agent_loop.rs lines 131-154)
for a finite quota `q`: `tools d` is the tools_used count reported by the
completion round at depth `d` (depths are 1-based); the loop stops after
round `d` when `tools d = 0` or `d` reaches the quota.  `fuel` bounds the
recursion; since the loop runs at most `q` rounds when `q ≥ 1`, fuel `q`
is enough (innerRounds below). -/
def innerGo (tools : ℕ → ℕ) (q : ℕ) : ℕ → ℕ → ℕ
  | 0, depth => depth
  | fuel + 1, depth =>
    if tools depth = 0 then depth
    else if depth = q then depth
    else innerGo tools q fuel (depth + 1)

/-- Number of completion rounds the inner loop of AgentLoop::execute runs
for one prompt under finite tool quota `q`, given per-depth tools_used
outcomes. -/
def innerRounds (tools : ℕ → ℕ) (q : ℕ) : ℕ :=
  innerGo tools q q 1

/-- A part of a CompletionEvaluatedPrompt
(completion_evaluated_prompt.rs, enum PromptPart); the connections inside
resource parts are referenced by their identifier, which keys the fetch
oracles. -/
inductive PromptPart where
  | string (s : String)
  | resource (connection : String) (resourceUri : String)
  | allResources (connection : String)
deriving Repr, DecidableEq

/-- CompletionEvaluatedPrompt::resource_contents_to_string
(completion_evaluated_prompt.rs lines 100-112): the text of a text
resource or the blob payload of a blob resource, joined by newlines. -/
def resourceContentsToString (contents : List ResourceContents) : String :=
  String.intercalate "\n"
    (contents.map (fun c =>
      match c with
      | .text _ _ text => text
      | .blob _ _ blob => blob))

/-- Recursive core of CompletionEvaluatedPrompt::evaluate
(completion_evaluated_prompt.rs lines 122-146), folding the parts in
order into the buffer; each part's expansion is followed by one pushed
newline.  `readRes` is McpServerConnection::read_resource and `getRes` is
McpServerConnection::get_resources, both keyed by connection identifier. -/
def evaluateParts (readRes : String → String → Except Error (List ResourceContents))
    (getRes : String → Except Error (List ResourceContents)) :
    List PromptPart → String → Except Error String
  | [], buffer => .ok buffer
  | .string s :: rest, buffer =>
    evaluateParts readRes getRes rest (buffer ++ s ++ "\n")
  | .resource conn uri :: rest, buffer =>
    match readRes conn uri with
    | .error e => .error e
    | .ok contents =>
      evaluateParts readRes getRes rest (buffer ++ resourceContentsToString contents ++ "\n")
  | .allResources conn :: rest, buffer =>
    match getRes conn with
    | .error e => .error e
    | .ok contents =>
      evaluateParts readRes getRes rest (buffer ++ resourceContentsToString contents ++ "\n")

/-- CompletionEvaluatedPrompt::evaluate, starting from the empty buffer. -/
def evaluate (readRes : String → String → Except Error (List ResourceContents))
    (getRes : String → Except Error (List ResourceContents))
    (parts : List PromptPart) : Except Error String :=
  evaluateParts readRes getRes parts ""

/-- Whether a prompt part is a literal string part. -/
def PromptPart.isLiteral : PromptPart → Bool
  | .string _ => true
  | _ => false

/-- Expected expansion of a literal-only prompt: each literal followed by
one newline, concatenated in order. -/
def literalConcat : List PromptPart → String
  | [] => ""
  | .string s :: rest => s ++ "\n" ++ literalConcat rest
  | _ :: rest => literalConcat rest

/-- Agent state with no connections and nothing cached. -/
def emptyAgentState : AgentState :=
  { staticTools := []
    toolset := []
    staticContext := []
    revalidatingTooling := []
    revalidatingResources := []
    conns := [] }

/-- Tool-fetch oracle advertising no tools. -/
def fetchNoTools : ℕ → Except Error (List String) := fun _ => .ok []

/-- Resource-fetch oracle advertising no resources. -/
def fetchNoResources : ℕ → Except Error (List ResourceContents) := fun _ => .ok []

/-- Tool-call oracle returning a fixed output. -/
def toolEcho : String → String → Except Error String := fun _ _ => .ok "output"

/-- Modelled from the spec: one concrete instance of the serde parse of
the generated McpToolName, recognizing the coral_send_message name;
serde rejects unknown variant names.  Used only to instantiate theorems
that hold for every parser. -/
def parseNameModel : String → Option McpToolName := fun s =>
  if s = "coral_send_message" then some .coralSendMessage else none

/-- Modelled from the spec: one concrete instance of the serde parse of
the generated McpToolResult, recognizing a fixed successful send-message
payload.  Used only to instantiate theorems that hold for every parser. -/
def parseResultModel : String → Option McpToolResult := fun out =>
  if out = "sent:m1:t1" then
    some (.sendMessageSuccess { id := "m1", threadId := "t1" })
  else
    none

/-- Connection flagged always-revalidate for both tools and resources,
already validated in both categories. -/
def connRevalidating : ConnState :=
  { identifier := "srv"
    revalidateTooling := true
    skipTooling := false
    revalidateResources := true
    skipResources := false
    toolsValidated := true
    resourcesValidated := true }

/-- The same connection before its first validation. -/
def connFresh : ConnState :=
  { connRevalidating with toolsValidated := false, resourcesValidated := false }

/-- Agent state as it stands after a round in which the always-revalidate
connection advertised tool "t" and resource "res:r". -/
def stateAfterRoundOne : AgentState :=
  { staticTools := ["t"]
    toolset := ["t"]
    staticContext := [{ id := "res:r", text := "doc", mimeType := none }]
    revalidatingTooling := ["t"]
    revalidatingResources := ["res:r"]
    conns := [connRevalidating] }

/-- Agent state at engine construction with the single always-revalidate
connection registered. -/
def stateFresh : AgentState :=
  { staticTools := []
    toolset := []
    staticContext := []
    revalidatingTooling := []
    revalidatingResources := []
    conns := [connFresh] }

/-- Tool-fetch oracle advertising the single tool "t". -/
def fetchToolT : ℕ → Except Error (List String) := fun _ => .ok ["t"]

/-- State after one tooling refresh of stateFresh against fetchToolT. -/
def stateRound1 : AgentState :=
  { staticTools := ["t"]
    toolset := ["t"]
    staticContext := []
    revalidatingTooling := ["t"]
    revalidatingResources := []
    conns := [{ connFresh with toolsValidated := true }] }

/-- Prompt-part resource oracles that always fail, witnessing that
literal-only evaluation never touches a provider. -/
def readResDown : String → String → Except Error (List ResourceContents) :=
  fun _ _ => .error (.mcpServiceError "unreachable")

/-- All-resources oracle that always fails. -/
def getResDown : String → Except Error (List ResourceContents) :=
  fun _ => .error (.mcpServiceError "unreachable")

theorem evaluateParts_literal
    (readRes : String → String → Except Error (List ResourceContents))
    (getRes : String → Except Error (List ResourceContents)) :
    ∀ (parts : List PromptPart) (buffer : String),
      (∀ p ∈ parts, p.isLiteral = true) →
      evaluateParts readRes getRes parts buffer = .ok (buffer ++ literalConcat parts)
  | [], buffer, _ => by
    simp [evaluateParts, literalConcat, String.append_empty]
  | .string s :: rest, buffer, h => by
    have hrest : ∀ p ∈ rest, p.isLiteral = true := fun p hp => h p (List.mem_cons_of_mem _ hp)
    rw [evaluateParts, evaluateParts_literal readRes getRes rest _ hrest, literalConcat]
    rw [String.append_assoc, String.append_assoc, String.append_assoc]
  | .resource conn uri :: rest, _, h => by
    have := h (.resource conn uri) (List.mem_cons_self _ _)
    simp [PromptPart.isLiteral] at this
  | .allResources conn :: rest, _, h => by
    have := h (.allResources conn) (List.mem_cons_self _ _)
    simp [PromptPart.isLiteral] at this

/-- C8: evaluating a CompletionEvaluatedPrompt made only of literal
String parts never fails and returns the concatenation of the literals,
each followed by one newline (including after the final part), and the
result is independent of the resource oracles, so two evaluations of the
same literal-only prompt agree. -/
theorem evaluate_literal_only
    (readRes1 readRes2 : String → String → Except Error (List ResourceContents))
    (getRes1 getRes2 : String → Except Error (List ResourceContents))
    (parts : List PromptPart)
    (hlit : ∀ p ∈ parts, p.isLiteral = true) :
    evaluate readRes1 getRes1 parts = .ok (literalConcat parts) ∧
    evaluate readRes1 getRes1 parts = evaluate readRes2 getRes2 parts := by
  have h1 := evaluateParts_literal readRes1 getRes1 parts "" hlit
  have h2 := evaluateParts_literal readRes2 getRes2 parts "" hlit
  rw [String.empty_append] at h1 h2
  exact ⟨h1, h1.trans h2.symm⟩

/-- Witness for C8: the two-literal prompt evaluates to "a\nb\n" even
against resource oracles that always fail, and identically so across two
different oracle pairs. -/
theorem evaluate_literal_only_witness :
    evaluate readResDown getResDown [.string "a", .string "b"] = .ok "a\nb\n" ∧
    evaluate readResDown getResDown [.string "a", .string "b"] =
      evaluate (fun _ _ => .ok []) (fun _ => .ok []) [.string "a", .string "b"] := by
  have h := evaluate_literal_only readResDown (fun _ _ => .ok [])
    getResDown (fun _ => .ok []) [.string "a", .string "b"]
    (by intro p hp; simp [PromptPart.isLiteral] at hp ⊢; rcases hp with h | h <;> simp [h])
  exact ⟨h.1, h.2⟩

theorem innerGo_spec (tools : ℕ → ℕ) (q : ℕ) :
    ∀ (fuel depth : ℕ), 1 ≤ depth → depth ≤ q → depth + fuel = q + 1 →
      depth ≤ innerGo tools q fuel depth ∧
      innerGo tools q fuel depth ≤ q ∧
      (∀ i, depth ≤ i → i < innerGo tools q fuel depth → tools i ≠ 0) ∧
      (tools (innerGo tools q fuel depth) = 0 ∨ innerGo tools q fuel depth = q)
  | 0, depth => by
    intro _ hdq hsum
    omega
  | fuel + 1, depth => by
    intro hd hdq hsum
    rw [innerGo]
    by_cases h0 : tools depth = 0
    · rw [if_pos h0]
      refine ⟨le_refl _, hdq, ?_, Or.inl h0⟩
      intro i hi hi2
      omega
    · rw [if_neg h0]
      by_cases hq : depth = q
      · rw [if_pos hq]
        refine ⟨le_refl _, hdq, ?_, Or.inr hq⟩
        intro i hi hi2
        omega
      · rw [if_neg hq]
        have ih := innerGo_spec tools q fuel (depth + 1) (by omega) (by omega) (by omega)
        refine ⟨by omega, ih.2.1, ?_, ih.2.2.2⟩
        intro i hi hi2
        rcases Nat.eq_or_lt_of_le hi with rfl | hlt
        · exact h0
        · exact ih.2.2.1 i (by omega) hi2

/-- C7: under a finite per-prompt tool quota q of at least 1, the inner
loop of AgentLoop::execute runs at least one and at most q rounds, every
round before the last reported a non-zero tools_used count, and the loop
ends exactly with a zero-tools round or with round q, whichever comes
first; in particular with quota 3 and every round using at least one
tool, exactly 3 rounds run, and the default quota constant is Some(64). -/
theorem inner_loop_rounds (tools : ℕ → ℕ) (q : ℕ) (hq : 1 ≤ q) :
    (1 ≤ innerRounds tools q ∧ innerRounds tools q ≤ q) ∧
    (∀ i, 1 ≤ i → i < innerRounds tools q → tools i ≠ 0) ∧
    (tools (innerRounds tools q) = 0 ∨ innerRounds tools q = q) ∧
    ((∀ i, 1 ≤ tools i) → innerRounds tools 3 = 3) ∧
    DEFAULT_ITERATION_TOOL_QUOTA = some 64 := by
  have h := innerGo_spec tools q q 1 (le_refl 1) hq (by omega)
  refine ⟨⟨h.1, h.2.1⟩, h.2.2.1, h.2.2.2, ?_, rfl⟩
  intro hall
  have h3 := innerGo_spec tools 3 3 1 (le_refl 1) (by omega) (by omega)
  rcases h3.2.2.2 with hz | hq3
  · have := hall (innerGo tools 3 3 1)
    omega
  · exact hq3

/-- Witness for C7: a model that always requests one tool runs exactly 3
rounds under quota 3, and one that never requests a tool runs exactly 1
round under quota 5. -/
theorem inner_loop_rounds_witness :
    innerRounds (fun _ => 1) 3 = 3 ∧ innerRounds (fun _ => 0) 5 = 1 := by
  refine ⟨?_, by decide⟩
  exact (inner_loop_rounds (fun _ => 1) 3 (by omega)).2.2.2.1 (fun _ => le_refl 1)

/-- C10: find_telemetry_targets is total by construction (it returns a
plain list) and returns a non-empty list exactly when the tool name
parses to CoralSendMessage and the output parses to SendMessageSuccess;
in that case the list is exactly one target carrying the sent message's
id and thread id.  This holds for every pair of parse oracles. -/
theorem find_telemetry_targets_characterization
    (parseName : String → Option McpToolName)
    (parseResult : String → Option McpToolResult)
    (name output : String) :
    (findTelemetryTargets parseName parseResult name output ≠ [] ↔
      parseName name = some .coralSendMessage ∧
      ∃ m, parseResult output = some (.sendMessageSuccess m)) ∧
    (∀ m, parseName name = some .coralSendMessage →
      parseResult output = some (.sendMessageSuccess m) →
      findTelemetryTargets parseName parseResult name output =
        [{ messageId := m.id, threadId := m.threadId }]) := by
  constructor
  · constructor
    · intro hne
      cases hn : parseName name with
      | none => simp [findTelemetryTargets, hn] at hne
      | some tn =>
        cases tn with
        | otherTool s => simp [findTelemetryTargets, hn] at hne
        | coralSendMessage =>
          refine ⟨rfl, ?_⟩
          cases hr : parseResult output with
          | none => simp [findTelemetryTargets, hn, hr] at hne
          | some tr =>
            cases tr with
            | otherResult p => simp [findTelemetryTargets, hn, hr] at hne
            | sendMessageSuccess m => exact ⟨m, rfl⟩
    · rintro ⟨hn, m, hr⟩
      simp [findTelemetryTargets, hn, hr]
  · intro m hn hr
    simp [findTelemetryTargets, hn, hr]

/-- Witness for C10 at concrete parsers and inputs: the recognized pair
yields exactly one target; an unrecognized tool name yields none. -/
theorem find_telemetry_targets_characterization_witness :
    findTelemetryTargets parseNameModel parseResultModel "coral_send_message" "sent:m1:t1"
      = [{ messageId := "m1", threadId := "t1" }] ∧
    findTelemetryTargets parseNameModel parseResultModel "list_agents" "sent:m1:t1" = [] := by
  constructor
  · exact (find_telemetry_targets_characterization parseNameModel parseResultModel
      "coral_send_message" "sent:m1:t1").2 { id := "m1", threadId := "t1" }
      (by simp [parseNameModel]) (by simp [parseResultModel])
  · by_contra hne
    have := (find_telemetry_targets_characterization parseNameModel parseResultModel
      "list_agents" "sent:m1:t1").1.mp hne
    simp [parseNameModel] at this

theorem evict_tooling_not_mem (s : AgentState) (n : String)
    (hn : n ∈ s.revalidatingTooling) :
    n ∉ (evictRevalidatingTooling s).toolset ∧
    n ∉ (evictRevalidatingTooling s).staticTools := by
  constructor
  · intro hmem
    simp only [evictRevalidatingTooling, List.mem_filter] at hmem
    simp [hn] at hmem
  · intro hmem
    simp only [evictRevalidatingTooling, List.mem_filter] at hmem
    simp [hn] at hmem

theorem evict_resources_not_mem (s : AgentState) (id2 : String)
    (hn : id2 ∈ s.revalidatingResources) :
    ∀ doc ∈ (evictRevalidatingResources s).staticContext, doc.id ≠ id2 := by
  intro doc hmem heq
  simp only [evictRevalidatingResources, List.mem_filter] at hmem
  rw [heq] at hmem
  simp [hn] at hmem

/-- C3 counterexample: stateAfterRoundOne has its only connection flagged
always-revalidate on both categories with both validated flags true.  At
the start of the next refresh the recorded identifiers are indeed evicted
(toolset becomes empty), but the connection's validated flags are still
true immediately after the eviction and remain true through the whole
refresh (the refresh even maps the state to itself), so the flags are
never "forced back to false" as the claim states. -/
theorem revalidation_flag_never_reset_counterexample :
    (evictRevalidatingTooling stateAfterRoundOne).toolset = [] ∧
    ((evictRevalidatingTooling stateAfterRoundOne).conns.map
      (fun c => c.toolsValidated)) = [true] ∧
    ((evictRevalidatingResources stateAfterRoundOne).conns.map
      (fun c => c.resourcesValidated)) = [true] ∧
    validateMcpTooling fetchToolT stateAfterRoundOne = .ok stateAfterRoundOne := by
  refine ⟨rfl, rfl, rfl, rfl⟩

/-- C3 amended: at the start of every refresh step every identifier
recorded from always-revalidate connections' previous fetches is evicted
from the merged tool/resource set and the record sets are cleared, all
before any refetch; the per-connection validated flags are NOT reset by
the eviction (it leaves the connection list untouched) — instead the
fetch loop treats every non-skipped always-revalidate connection as due
regardless of its validated flag. -/
theorem revalidation_evicts_without_flag_reset (s : AgentState)
    (n id2 : String) (c : ConnState) :
    (n ∈ s.revalidatingTooling →
      n ∉ (evictRevalidatingTooling s).toolset ∧
      n ∉ (evictRevalidatingTooling s).staticTools) ∧
    (evictRevalidatingTooling s).revalidatingTooling = [] ∧
    (evictRevalidatingTooling s).conns = s.conns ∧
    (id2 ∈ s.revalidatingResources →
      ∀ doc ∈ (evictRevalidatingResources s).staticContext, doc.id ≠ id2) ∧
    (evictRevalidatingResources s).revalidatingResources = [] ∧
    (evictRevalidatingResources s).conns = s.conns ∧
    (c.revalidateTooling = true → c.skipTooling = false → toolingDue c = true) ∧
    (c.revalidateResources = true → c.skipResources = false → resourcesDue c = true) := by
  refine ⟨evict_tooling_not_mem s n, rfl, rfl, evict_resources_not_mem s id2, rfl, rfl, ?_, ?_⟩
  · intro h1 h2
    simp [toolingDue, h1, h2]
  · intro h1 h2
    simp [resourcesDue, h1, h2]

/-- Witness for C3 (amended) at the concrete post-round state: the
recorded tool "t" and resource "res:r" are gone after eviction, the
record sets are drained, the connection list is untouched by eviction,
and the always-revalidate connection counts as due. -/
theorem revalidation_evicts_without_flag_reset_witness :
    ("t" ∉ (evictRevalidatingTooling stateAfterRoundOne).toolset ∧
      "t" ∉ (evictRevalidatingTooling stateAfterRoundOne).staticTools) ∧
    (∀ doc ∈ (evictRevalidatingResources stateAfterRoundOne).staticContext,
      doc.id ≠ "res:r") ∧
    toolingDue connRevalidating = true ∧
    resourcesDue connRevalidating = true := by
  have h := revalidation_evicts_without_flag_reset stateAfterRoundOne "t" "res:r"
    connRevalidating
  exact ⟨h.1 (by simp [stateAfterRoundOne]),
    h.2.2.2.1 (by simp [stateAfterRoundOne]),
    h.2.2.2.2.2.2.1 rfl rfl,
    h.2.2.2.2.2.2.2 rfl rfl⟩

theorem mem_addTool (base : List String) (t n : String)
    (h : n ∈ addTool base t) : n ∈ base ∨ n = t := by
  unfold addTool at h
  split at h
  · exact Or.inl h
  · rcases List.mem_append.mp h with h1 | h1
    · exact Or.inl h1
    · simp at h1
      exact Or.inr h1

theorem mem_foldl_addTool :
    ∀ (ts base : List String) (n : String), n ∈ ts.foldl addTool base →
      n ∈ base ∨ n ∈ ts
  | [], base, n => fun h => Or.inl h
  | t :: ts, base, n => fun h => by
    rcases mem_foldl_addTool ts (addTool base t) n h with h1 | h1
    · rcases mem_addTool base t n h1 with h2 | h2
      · exact Or.inl h2
      · exact Or.inr (by simp [h2])
    · exact Or.inr (List.mem_cons_of_mem _ h1)

theorem validateMcpTooling_ok (f : ℕ → Except Error (List String))
    (s s' : AgentState) (h : validateMcpTooling f s = .ok s') :
    ∃ cs ts rs, gatherTools f (evictRevalidatingTooling s).conns 0 = .ok (cs, ts, rs) ∧
      s'.conns = cs ∧
      s'.revalidatingTooling = rs ∧
      s'.toolset = ts.foldl addTool (evictRevalidatingTooling s).toolset := by
  unfold validateMcpTooling at h
  simp only [] at h
  split at h
  · simp at h
  · rename_i cs ts rs hg
    refine ⟨cs, ts, rs, hg, ?_⟩
    simp only [Except.ok.injEq] at h
    rw [← h]
    exact ⟨rfl, rfl, rfl⟩

theorem gatherTools_records (f : ℕ → Except Error (List String)) :
    ∀ (conns : List ConnState) (i0 : ℕ) (cs : List ConnState) (ts rs : List String),
      gatherTools f conns i0 = .ok (cs, ts, rs) →
      ∀ (j : ℕ) (c : ConnState), conns[j]? = some c → toolingDue c = true →
        c.revalidateTooling = true →
      ∀ (names : List String), f (i0 + j) = .ok names →
      ∀ n ∈ names, n ∈ rs
  | [], i0, cs, ts, rs => by
    intro _ j c hj
    simp at hj
  | c0 :: rest, i0, cs, ts, rs => by
    intro h j c hj hdue hrv names hf n hn
    cases j with
    | zero =>
      have hc : c0 = c := by simpa using hj
      subst hc
      rw [Nat.add_zero] at hf
      simp only [gatherTools, hdue, Bool.not_true, Bool.false_eq_true, if_false] at h
      rw [hf] at h
      cases hrec : gatherTools f rest (i0 + 1) with
      | error e => rw [hrec] at h; simp at h
      | ok out =>
        obtain ⟨cs', ts', rs'⟩ := out
        rw [hrec] at h
        simp only [Except.ok.injEq, Prod.mk.injEq] at h
        obtain ⟨-, -, hrs⟩ := h
        rw [← hrs, hrv]
        simp [hn]
    | succ j' =>
      have hj' : rest[j']? = some c := by simpa using hj
      have hf' : f (i0 + 1 + j') = .ok names := by
        rw [show i0 + 1 + j' = i0 + (j' + 1) from by omega]
        exact hf
      by_cases hd0 : toolingDue c0
      · simp only [gatherTools, hd0, Bool.not_true, Bool.false_eq_true, if_false] at h
        cases hfetch : f i0 with
        | error e => rw [hfetch] at h; simp at h
        | ok names0 =>
          rw [hfetch] at h
          cases hrec : gatherTools f rest (i0 + 1) with
          | error e => rw [hrec] at h; simp at h
          | ok out =>
            obtain ⟨cs', ts', rs'⟩ := out
            rw [hrec] at h
            simp only [Except.ok.injEq, Prod.mk.injEq] at h
            obtain ⟨-, -, hrs⟩ := h
            have hmem := gatherTools_records f rest (i0 + 1) cs' ts' rs' hrec
              j' c hj' hdue hrv names hf' n hn
            rw [← hrs]
            simp [hmem]
      · simp only [gatherTools, hd0, Bool.not_false, if_true] at h
        cases hrec : gatherTools f rest (i0 + 1) with
        | error e => rw [hrec] at h; simp at h
        | ok out =>
          obtain ⟨cs', ts', rs'⟩ := out
          rw [hrec] at h
          simp only [Except.ok.injEq, Prod.mk.injEq] at h
          obtain ⟨-, -, hrs⟩ := h
          rw [← hrs]
          exact gatherTools_records f rest (i0 + 1) cs' ts' rs' hrec
            j' c hj' hdue hrv names hf' n hn

/-- C4: for an always-revalidate, non-skipped connection whose round-N
fetch advertised tool T, if round N+1's refresh succeeds then T is in the
merged ToolSet after round N+1 only if round N+1's fetch loop freshly
re-fetched T (T is among the names fetched during the second refresh):
the record of round N is evicted before round N+1 fetches anything. -/
theorem revalidated_tool_only_if_refetched
    (fT1 fT2 : ℕ → Except Error (List String)) (s s1 s2 : AgentState)
    (T : String) (i : ℕ) (c : ConnState) (names : List String)
    (hconn : (evictRevalidatingTooling s).conns[i]? = some c)
    (hrv : c.revalidateTooling = true) (hsk : c.skipTooling = false)
    (hf1 : fT1 i = .ok names) (hT : T ∈ names)
    (h1 : validateMcpTooling fT1 s = .ok s1)
    (h2 : validateMcpTooling fT2 s1 = .ok s2)
    (hmem : T ∈ s2.toolset) :
    ∃ cs ts rs, gatherTools fT2 (evictRevalidatingTooling s1).conns 0 = .ok (cs, ts, rs) ∧
      T ∈ ts := by
  obtain ⟨cs1, ts1, rs1, hg1, -, hrev1, -⟩ := validateMcpTooling_ok fT1 s s1 h1
  have hdue : toolingDue c = true := by simp [toolingDue, hrv, hsk]
  have hTrec : T ∈ rs1 := gatherTools_records fT1 _ 0 cs1 ts1 rs1 hg1 i c hconn
    hdue hrv names (by simpa using hf1) T hT
  have hTrev : T ∈ s1.revalidatingTooling := by rw [hrev1]; exact hTrec
  obtain ⟨cs2, ts2, rs2, hg2, -, -, htool2⟩ := validateMcpTooling_ok fT2 s1 s2 h2
  refine ⟨cs2, ts2, rs2, hg2, ?_⟩
  rw [htool2] at hmem
  rcases mem_foldl_addTool ts2 _ T hmem with hbase | hts
  · exact absurd hbase (evict_tooling_not_mem s1 T hTrev).1
  · exact hts

/-- Witness for C4: two successive tooling refreshes of the fresh state
against a provider advertising tool "t"; the theorem yields that "t"
survives into round 2's ToolSet only because round 2 re-fetched it. -/
theorem revalidated_tool_only_if_refetched_witness :
    ∃ cs ts rs,
      gatherTools fetchToolT (evictRevalidatingTooling stateRound1).conns 0
        = .ok (cs, ts, rs) ∧ "t" ∈ ts := by
  refine revalidated_tool_only_if_refetched fetchToolT fetchToolT stateFresh
    stateRound1 stateRound1 "t" 0 connFresh ["t"] (by decide) rfl rfl rfl
    (by simp) rfl rfl (by simp [stateRound1])

theorem processChoices_length (tc : String → String → Except Error String)
    (pN : String → Option McpToolName) (pR : String → Option McpToolResult) :
    ∀ (choices : List AssistantContent) (msgs : List Message) (texts : List String)
      (used : ℕ) (tgts : List TelemetryTarget) (msgs2 : List Message)
      (texts2 : List String) (used2 : ℕ) (tgts2 : List TelemetryTarget),
      processChoices tc pN pR choices msgs texts used tgts
        = .ok (msgs2, texts2, used2, tgts2) →
      msgs2.length + used = msgs.length + used2
  | [], msgs, texts, used, tgts, msgs2, texts2, used2, tgts2 => by
    intro h
    simp only [processChoices, Except.ok.injEq, Prod.mk.injEq] at h
    obtain ⟨h1, -, h3, -⟩ := h
    rw [h1, h3]
  | .text t :: rest, msgs, texts, used, tgts, msgs2, texts2, used2, tgts2 => by
    intro h
    rw [processChoices] at h
    exact processChoices_length tc pN pR rest _ _ _ _ _ _ _ _ h
  | .reasoning r :: rest, msgs, texts, used, tgts, msgs2, texts2, used2, tgts2 => by
    intro h
    rw [processChoices] at h
    exact processChoices_length tc pN pR rest _ _ _ _ _ _ _ _ h
  | .toolCall id callId name args :: rest, msgs, texts, used, tgts,
      msgs2, texts2, used2, tgts2 => by
    intro h
    rw [processChoices] at h
    cases htc : tc name args with
    | error e => rw [htc] at h; simp at h
    | ok output =>
      rw [htc] at h
      simp only [] at h
      have ih := processChoices_length tc pN pR rest _ _ _ _ _ _ _ _ h
      simp only [List.length_append, List.length_cons, List.length_nil] at ih
      omega

/-- C1 counterexample: a one-message history (the prompt alone) with a
text-only completion (zero tool calls) returns a history of length 2, not
1 + 2 + 0 = 3 as the claim computes: run_completion pops the prompt from
its input and re-appends it, so the prompt does not add a turn on top of
the input length. -/
theorem run_completion_length_counterexample :
    runCompletion fetchNoTools fetchNoResources (.ok [AssistantContent.text "ok"])
      toolEcho parseNameModel parseResultModel emptyAgentState
      [Message.user [UserContent.text "hi"]]
    = some (.ok (emptyAgentState,
        { messages := [Message.user [UserContent.text "hi"],
                       Message.assistant none [AssistantContent.text "ok"]]
          texts := ["ok"]
          toolsUsed := 0 })) ∧
    ¬ ((2 : ℕ) = 1 + 2 + 0) := by
  exact ⟨rfl, by omega⟩

/-- C1 amended: for every successful run_completion round, the length of
the returned message history equals the length of the input history plus
exactly 1 plus the number of tool calls executed this round: the last
input entry is popped as the prompt and re-appended (net zero), then one
assistant turn and one tool-result turn per tool call are appended. -/
theorem run_completion_history_growth
    (fT : ℕ → Except Error (List String))
    (fR : ℕ → Except Error (List ResourceContents))
    (comp : Except Error (List AssistantContent))
    (tc : String → String → Except Error String)
    (pN : String → Option McpToolName) (pR : String → Option McpToolResult)
    (s s' : AgentState) (messages : List Message) (res : CompletionResult)
    (h : runCompletion fT fR comp tc pN pR s messages = some (.ok (s', res))) :
    res.messages.length = messages.length + 1 + res.toolsUsed := by
  unfold runCompletion at h
  split at h
  · simp at h
  · rename_i s1 hv1
    split at h
    · simp at h
    · rename_i s2 hv2
      split at h
      · simp at h
      · rename_i prompt hlast
        split at h
        · simp at h
        · rename_i choice
          split at h
          · simp at h
          · rename_i ms ts2 us tg hpc
            simp only [Option.some.injEq, Except.ok.injEq, Prod.mk.injEq] at h
            obtain ⟨-, hres⟩ := h
            have hlen := processChoices_length tc pN pR choice
              (messages.dropLast ++ [prompt, Message.assistant none choice])
              [] 0 [] ms ts2 us tg hpc
            have hne : messages ≠ [] := by
              intro hemp
              rw [hemp] at hlast
              simp at hlast
            have hpos : 1 ≤ messages.length := List.length_pos.mpr hne
            have hdl : messages.dropLast.length = messages.length - 1 := by simp
            rw [← hres]
            simp only [List.length_append, List.length_cons, List.length_nil] at hlen
            simp only []
            omega

/-- Witness for C1 (amended) at a concrete round with one tool call: a
one-entry input history returns a history of length 3 = 1 + 1 + 1. -/
theorem run_completion_history_growth_witness :
    ([Message.user [UserContent.text "hi"],
      Message.assistant none
        [AssistantContent.toolCall "1" none "search" "null"],
      Message.user [UserContent.toolResult "1" none ["output"]]] : List Message).length
      = ([Message.user [UserContent.text "hi"]] : List Message).length + 1 + 1 := by
  have h := run_completion_history_growth fetchNoTools fetchNoResources
    (.ok [AssistantContent.toolCall "1" none "search" "null"])
    toolEcho parseNameModel parseResultModel emptyAgentState emptyAgentState
    [Message.user [UserContent.text "hi"]]
    { messages := [Message.user [UserContent.text "hi"],
        Message.assistant none [AssistantContent.toolCall "1" none "search" "null"],
        Message.user [UserContent.toolResult "1" none ["output"]]]
      texts := []
      toolsUsed := 1 }
    rfl
  exact h

/-- C9: run_completion reaches the `.expect` panic exactly on an empty
input history: when both validation refreshes succeed, an empty history
makes the prompt pop panic (modelled as `none`) instead of returning an
Error value; for every non-empty history the pop cannot fail and the
panic branch is unreachable (the result is always `some`). -/
theorem run_completion_empty_history_panics
    (fT : ℕ → Except Error (List String))
    (fR : ℕ → Except Error (List ResourceContents))
    (comp : Except Error (List AssistantContent))
    (tc : String → String → Except Error String)
    (pN : String → Option McpToolName) (pR : String → Option McpToolResult)
    (s s1 s2 : AgentState) (messages : List Message) :
    (validateMcpTooling fT s = .ok s1 → validateMcpResources fR s1 = .ok s2 →
      runCompletion fT fR comp tc pN pR s [] = none) ∧
    (messages ≠ [] → runCompletion fT fR comp tc pN pR s messages ≠ none) := by
  constructor
  · intro h1 h2
    simp [runCompletion, h1, h2]
  · intro hne
    unfold runCompletion
    cases validateMcpTooling fT s with
    | error e => simp
    | ok t1 =>
      simp only []
      cases validateMcpResources fR t1 with
      | error e => simp
      | ok t2 =>
        simp only []
        cases hlast : messages.getLast? with
        | none =>
          rw [List.getLast?_eq_none_iff] at hlast
          exact absurd hlast hne
        | some prompt =>
          simp only []
          cases comp with
          | error e => simp
          | ok choice =>
            simp only []
            cases processChoices tc pN pR choice
                (messages.dropLast ++ [prompt, Message.assistant none choice]) [] 0 [] with
            | error e => simp
            | ok out =>
              obtain ⟨ms, ts2, us, tg⟩ := out
              simp

/-- Witness for C9 at concrete inputs: the empty history panics while the
one-entry history returns normally, with the same oracles and state. -/
theorem run_completion_empty_history_panics_witness :
    runCompletion fetchNoTools fetchNoResources (.ok [AssistantContent.text "ok"])
      toolEcho parseNameModel parseResultModel emptyAgentState [] = none ∧
    runCompletion fetchNoTools fetchNoResources (.ok [AssistantContent.text "ok"])
      toolEcho parseNameModel parseResultModel emptyAgentState
      [Message.user [UserContent.text "hi"]] ≠ none := by
  have h := run_completion_empty_history_panics fetchNoTools fetchNoResources
    (.ok [AssistantContent.text "ok"]) toolEcho parseNameModel parseResultModel
    emptyAgentState emptyAgentState emptyAgentState
    [Message.user [UserContent.text "hi"]]
  exact ⟨h.1 rfl rfl, h.2 (by simp)⟩

/-- C5: when a non-zero claim is actually sent (claims enabled) and the
remote call succeeds, ClaimManager::claim returns the fatal
BudgetExhausted error exactly when the remote-reported remaining budget
is at or below the configured floor converted to micro units (Coral
multiplied by 1e6; MicroCoral unchanged; Usd divided by the remote
coral_usd_price then multiplied by 1e6, truncated toward zero); with
exit_on_budget_exhausted unset the claim succeeds regardless. -/
theorem claim_budget_exhausted_iff (cm : ClaimManager)
    (remote : ClaimAmount → Except String AgentClaimResponse)
    (amount : ClaimAmount) (resp : AgentClaimResponse)
    (hz : amount.isZero = false) (hr : remote amount = .ok resp) :
    (cm.exitOnBudgetExhausted = true →
      ((cm.claim true remote amount).2 = .error .budgetExhausted ↔
        resp.remainingBudget ≤
          (match cm.minBudget with
           | .coral c => truncToward0 (c * MICRO_CORAL_TO_CORAL)
           | .microCoral m => m
           | .usd u => truncToward0 (u / resp.coralUsdPrice * MICRO_CORAL_TO_CORAL)))) ∧
    (cm.exitOnBudgetExhausted = false →
      (cm.claim true remote amount).2 = .ok ()) := by
  constructor
  · intro hex
    constructor
    · intro hbe
      by_contra hle
      simp [ClaimManager.claim, hz, hr, hex, minBudgetMicro, hle] at hbe
    · intro hle
      simp [ClaimManager.claim, hz, hr, hex, minBudgetMicro, hle]
  · intro hex
    simp [ClaimManager.claim, hz, hr, hex]

/-- Witness for C5: remaining budget 50 against floor 100 with
exit-on-exhaustion enabled fails with BudgetExhausted; with it disabled
the same claim succeeds. -/
theorem claim_budget_exhausted_iff_witness :
    (cmFloor100.claim true remoteBudget50 (.microCoral 10)).2
        = .error .budgetExhausted ∧
    (cmFloor100NoExit.claim true remoteBudget50 (.microCoral 10)).2 = .ok () := by
  constructor
  · exact ((claim_budget_exhausted_iff cmFloor100 remoteBudget50 (.microCoral 10)
      { remainingBudget := 50, coralUsdPrice := 1 } rfl rfl).1 rfl).mpr (by decide)
  · exact (claim_budget_exhausted_iff cmFloor100NoExit remoteBudget50 (.microCoral 10)
      { remainingBudget := 50, coralUsdPrice := 1 } rfl rfl).2 rfl

/-- C6: a claim with claims disabled sends nothing and succeeds; a
zero-amount claim sends nothing and succeeds; and claim_tokens with both
token unit costs zero sends nothing and succeeds, for every usage report.
The first component of each result is the list of amounts actually sent
to the remote ledger. -/
theorem claim_zero_or_disabled_sends_nothing (cm : ClaimManager)
    (remote : ClaimAmount → Except String AgentClaimResponse)
    (amount : ClaimAmount) (sendClaims : Bool) (usage : Usage) :
    cm.claim false remote amount = ([], .ok ()) ∧
    (amount.isZero = true → cm.claim true remote amount = ([], .ok ())) ∧
    (cm.inputTokenCost.isZero = true → cm.outputTokenCost.isZero = true →
      cm.claimTokens sendClaims remote usage = ([], .ok ())) := by
  refine ⟨?_, ?_, ?_⟩
  · simp [ClaimManager.claim]
  · intro hz
    simp [ClaimManager.claim, hz]
  · intro hi ho
    simp [ClaimManager.claimTokens, hi, ho]

/-- Witness for C6 at concrete inputs: the remote oracle always fails, so
success of each suppressed path also shows the remote was never
consulted. -/
theorem claim_zero_or_disabled_sends_nothing_witness :
    cmFloor100.claim false remoteAlwaysDown (.microCoral 7) = ([], .ok ()) ∧
    cmFloor100.claim true remoteAlwaysDown (.microCoral 0) = ([], .ok ()) ∧
    cmFloor100.claimTokens true remoteAlwaysDown
      { inputTokens := 3, outputTokens := 4, totalTokens := 7 } = ([], .ok ()) := by
  have h := claim_zero_or_disabled_sends_nothing cmFloor100 remoteAlwaysDown
    (.microCoral 7) true { inputTokens := 3, outputTokens := 4, totalTokens := 7 }
  have h0 := claim_zero_or_disabled_sends_nothing cmFloor100 remoteAlwaysDown
    (.microCoral 0) true { inputTokens := 3, outputTokens := 4, totalTokens := 7 }
  exact ⟨h.1, h0.2.1 rfl, h.2.2 rfl rfl⟩

/-- C2: evaluating claim_tool_call at a tool with a custom cost entry:
the code sends THREE claims (the base cost once, then the custom cost
twice), not the two the spec describes; the duplicated custom claim
contradicts the source's own field documentation ("The cost will be added
to the base_tool_call_cost") and its log line, which reports the custom
cost once. -/
theorem claim_tool_call_bills_custom_cost_twice :
    cmCustomTool.claimToolCall true remoteAlwaysOk "search" =
      ([.microCoral 1, .microCoral 2, .microCoral 2], .ok ()) := by
  rfl
